import Mathlib

/-!
Formal model of the MFX digital-twin alignment/optimization core
(`full_simulator/`): the `AlignmentTask` variants of
`alignment_interface.py`, the three search strategies of
`simple_optimizer.py`, and the trial recorder of `history_logger.py`.

Numeric adapter/detector values are modelled as exact rationals (`ℚ`);
objective values, which pass through `np.sqrt`, live in `ℝ`.  The external
beam-propagation engine (`sim.propagate`, xrt ray tracing, the skopt
surrogate, numpy's RNG) is modelled by explicit oracle parameters, so every
theorem quantifies over all possible behaviours of those collaborators.
An operation that can raise a Python exception is embedded with an
`Except`/`Option` result; a total Lean function models code that cannot
raise.
-/

/-- Penalty constant `LARGE_PENALTY = 1e6` from `alignment_interface.py`. -/
def LARGE_PENALTY : ℚ := 1000000

/-! ### The optimizer-side view of a task (`simple_optimizer.py`)

The three strategies use a task only through `get_bounds`, `set_dofs` and
`evaluate_objective`.  `set_dofs` may raise (modelled by `Except.error`,
carrying the possibly part-mutated task state the exception left behind)
and `evaluate_objective` may raise (modelled by `none`); in the repository
`evaluate_objective` never mutates the task, so it returns only a value. -/

structure OptTask (σ : Type) where
  bounds : List (ℚ × ℚ)
  set_dofs : σ → List ℚ → Except σ σ
  evaluate_objective : σ → Option ℚ

/-- One history entry `{"trial": i, "cost": c, "dof_j": ...}` as built by
`HistoryLogger.log`. -/
structure TrialEntry where
  trial : ℕ
  cost : ℚ
  dofs : List ℚ
deriving DecidableEq, Repr

/-- Accumulated state of one optimizer run: the `best_dofs`/`best_cost`
pair (initially `None`/`float("inf")`, the top of `WithTop ℚ`), the task
state threaded through the trials, and the logger's record of every
trial. -/
structure OptRun (σ : Type) where
  best_dofs : Option (List ℚ)
  best_cost : WithTop ℚ
  state : σ
  log : List TrialEntry

/-- Body of the `try/except` around one candidate evaluation, shared
verbatim by `random_search` (lines 13-18), `grid_search` (lines 47-52) and
`bayesian_optimization` (lines 83-88): if `set_dofs` or
`evaluate_objective` raises, the trial's cost is `LARGE_PENALTY`. -/
def runTrial {σ : Type} (T : OptTask σ) (s : σ) (cand : List ℚ) : σ × ℚ :=
  match T.set_dofs s cand with
  | Except.error s' => (s', LARGE_PENALTY)
  | Except.ok s' =>
      match T.evaluate_objective s' with
      | none => (s', LARGE_PENALTY)
      | some c => (s', c)

/-- Tail of one loop iteration, shared by all three strategies: log the
trial, then update the running best by strict `cost < best_cost`. -/
def optStep {σ : Type} (acc : OptRun σ) (i : ℕ) (cand : List ℚ)
    (s' : σ) (cost : ℚ) : OptRun σ :=
  let log' := acc.log ++ [⟨i, cost, cand⟩]
  if (cost : WithTop ℚ) < acc.best_cost then
    { best_dofs := some cand, best_cost := (cost : WithTop ℚ), state := s', log := log' }
  else
    { best_dofs := acc.best_dofs, best_cost := acc.best_cost, state := s', log := log' }

/-- One full trial: evaluate the candidate (with exception isolation),
log, and update the best. -/
def trialStep {σ : Type} (T : OptTask σ) (acc : OptRun σ) (i : ℕ)
    (cand : List ℚ) : OptRun σ :=
  let r := runTrial T acc.state cand
  optStep acc i cand r.1 r.2

/-- Initial accumulator: `best_dofs = None`, `best_cost = float("inf")`,
no trials logged. -/
def optInit {σ : Type} (s0 : σ) : OptRun σ :=
  { best_dofs := none, best_cost := ⊤, state := s0, log := [] }

/-- Model of `random_search(task, n_trials, logger)`.  The candidate drawn
by `np.random.uniform` at trial `i` is supplied by the RNG oracle
`draw`. -/
def random_search {σ : Type} (T : OptTask σ) (draw : ℕ → List ℚ)
    (n_trials : ℕ) (s0 : σ) : OptRun σ :=
  (List.range n_trials).foldl (fun acc i => trialStep T acc i (draw i)) (optInit s0)

/-- Model of `np.linspace(low, high, num)`: `num` evenly spaced values
from `low` to `high` inclusive (`[low]` when `num = 1`). -/
def linspace (low high : ℚ) (num : ℕ) : List ℚ :=
  if num ≤ 1 then List.replicate num low
  else (List.range num).map
    (fun i : ℕ => low + (high - low) * (i : ℚ) / ((num : ℚ) - 1))

/-- Row-major Cartesian product of a list of axes: the first axis varies
slowest, the last fastest. -/
def cartProd : List (List ℚ) → List (List ℚ)
  | [] => [[]]
  | xs :: rest => xs.flatMap (fun x => (cartProd rest).map (fun r => x :: r))

/-- Swap the first two elements of a list (identity on shorter lists). -/
def swap01 {α : Type} : List α → List α
  | a :: b :: t => b :: a :: t
  | l => l

/-- Semantics of `np.stack([m.flatten() for m in np.meshgrid(*axes)], axis=-1)`
with `np.meshgrid`'s default `indexing='xy'`: the output grid's leading two
axes are those of the second and first input axis respectively, so the
row-major flattening enumerates the Cartesian product with the first two
axes exchanged, each point then carrying its coordinates back in input
order. -/
def meshgridPoints (axes : List (List ℚ)) : List (List ℚ) :=
  (cartProd (swap01 axes)).map swap01

/-- The `grid_points` array of `grid_search` (lines 41-43): per-axis
`np.linspace` values combined through `np.meshgrid` and flattened. -/
def gridCandidates (bounds : List (ℚ × ℚ)) (points_per_dim : ℕ) : List (List ℚ) :=
  meshgridPoints (bounds.map (fun b => linspace b.1 b.2 points_per_dim))

/-- Model of `grid_search(task, points_per_dim, logger)`. -/
def grid_search {σ : Type} (T : OptTask σ) (points_per_dim : ℕ) (s0 : σ) :
    OptRun σ :=
  (gridCandidates T.bounds points_per_dim).enum.foldl
    (fun acc p => trialStep T acc p.1 p.2) (optInit s0)

/-- One iteration of `bayesian_optimization` (lines 81-99): `opt.ask()`
proposes a candidate from the told history, the candidate is evaluated
with exception isolation, and `opt.tell` records the observed cost. -/
def bayesStep {σ : Type} (T : OptTask σ) (ask : List (List ℚ × ℚ) → List ℚ)
    (acc : OptRun σ × List (List ℚ × ℚ)) (i : ℕ) :
    OptRun σ × List (List ℚ × ℚ) :=
  let cand := ask acc.2
  let r := runTrial T acc.1.state cand
  (optStep acc.1 i cand r.1 r.2, acc.2 ++ [(cand, r.2)])

/-- Model of `bayesian_optimization(task, n_calls, logger)`.  The skopt
surrogate is the oracle `ask`, mapping the list of `(candidate, cost)`
pairs told so far to the next candidate; the second component returned is
that told history. -/
def bayesian_optimization {σ : Type} (T : OptTask σ)
    (ask : List (List ℚ × ℚ) → List ℚ) (n_calls : ℕ) (s0 : σ) :
    OptRun σ × List (List ℚ × ℚ) :=
  (List.range n_calls).foldl (bayesStep T ask) (optInit s0, [])

/-! ### `HistoryLogger` (`history_logger.py`)

The CSV file on disk is modelled as the list of rows it contains; a data
row keeps the written values themselves (exact), a header row its column
names. -/

/-- One row of the persisted `history.csv`. -/
inductive CsvRow
  | header (fields : List String)
  | data (trial : ℕ) (cost : ℚ) (dofs : List ℚ)
deriving DecidableEq, Repr

/-- Cost column of a CSV row (`none` on the header row). -/
def CsvRow.costOf : CsvRow → Option ℚ
  | CsvRow.header _ => none
  | CsvRow.data _ c _ => some c

/-- Column names of an entry, in dict order: `trial, cost, dof_0, ...`. -/
def entryFields (e : TrialEntry) : List String :=
  "trial" :: "cost" :: (List.range e.dofs.length).map (fun i => "dof_" ++ toString i)

/-- State of a `HistoryLogger`: the in-memory history, the
`header_written` flag, the `real_time_csv` switch and the persisted
file. -/
structure HistoryLogger where
  real_time_csv : Bool
  history : List TrialEntry
  header_written : Bool
  file : List CsvRow
deriving DecidableEq, Repr

/-- Constructor: empty history, header not yet written; with
`real_time_csv` the file is created/truncated empty
(`_write_csv_header` writes nothing). -/
def HistoryLogger.init (real_time_csv : Bool) : HistoryLogger :=
  { real_time_csv := real_time_csv, history := [], header_written := false, file := [] }

/-- Model of `_append_to_csv`: on the first entry the file is rewritten to
hold just the header (taken from that entry's keys), then the entry is
appended; afterwards each entry is appended. -/
def HistoryLogger.append_to_csv (L : HistoryLogger) (e : TrialEntry) : HistoryLogger :=
  if L.header_written then
    { L with file := L.file ++ [CsvRow.data e.trial e.cost e.dofs] }
  else
    { L with header_written := true,
             file := [CsvRow.header (entryFields e), CsvRow.data e.trial e.cost e.dofs] }

/-- Model of `HistoryLogger.log(index, candidate, cost, task)`: append the
entry to the in-memory history and, when `real_time_csv`, to the file.
Diagnostic-image capture touches neither history nor file. -/
def HistoryLogger.log (L : HistoryLogger) (index : ℕ) (candidate : List ℚ)
    (cost : ℚ) : HistoryLogger :=
  let e : TrialEntry := { trial := index, cost := cost, dofs := candidate }
  let L' := { L with history := L.history ++ [e] }
  if L.real_time_csv then L'.append_to_csv e else L'

/-- A sequence of `log` calls. -/
def HistoryLogger.logAll (L : HistoryLogger) (items : List (ℕ × List ℚ × ℚ)) :
    HistoryLogger :=
  items.foldl (fun acc it => acc.log it.1 it.2.1 it.2.2) L

/-- Semantics of Python's `min(iterable, key=cost)`: scan left to right,
replacing the current best only on strictly smaller cost, so the first
minimum wins. -/
def pickBest : TrialEntry → List TrialEntry → TrialEntry
  | a, [] => a
  | a, e :: t => pickBest (if e.cost < a.cost then e else a) t

/-- Model of `HistoryLogger.get_best_result()`: `(None, None)` on empty
history, otherwise the DOFs and cost of the minimum-cost entry. -/
def HistoryLogger.get_best_result (L : HistoryLogger) :
    Option (List ℚ) × Option ℚ :=
  match L.history with
  | [] => (none, none)
  | h :: t =>
      let best := pickBest h t
      (some best.dofs, some best.cost)

/-! ### The simulation adapter and the four task variants
(`alignment_interface.py`)

The adapter state `Sim` carries the motors the tasks write
(`beam_params['ax'/'ay']`, `mr1l4_pitch`, the transfocator lens `x`/`y`
motors) and the detector observables they read (`hx2_shared`, `DG1_YAG`,
`DG2_YAG`).  `propagate` is an oracle `Sim → Sim × Bool`: the state the
call leaves behind (possibly part-mutated on failure) and whether it
succeeded (`false` models a raised exception). -/

/-- One CRL lens of `sim.tfs_list`. -/
structure Lens where
  enabled : Bool
  x : ℚ
  y : ℚ
deriving DecidableEq, Repr

/-- Adapter (simulation) state visible to the four tasks. -/
structure Sim where
  ax : ℚ
  ay : ℚ
  mr1l4_pitch : ℚ
  tfs_list : List Lens
  hx2_cx : ℚ
  hx2_cy : ℚ
  dg1_cx : ℚ
  dg2_cx : ℚ
  dg2_cy : ℚ
  dg2_wx : ℚ
  dg2_wy : ℚ
deriving DecidableEq, Repr

/-- State of an `UndulatorPointingTask`: the bound adapter plus the
`_propagation_failed` flag (`getattr` default `False` before any
`set_dofs`). -/
structure UPState where
  sim : Sim
  propagation_failed : Bool
deriving DecidableEq, Repr

namespace UndulatorPointingTask

/-- `sim.undulator_pointing(ax=..., ay=...)`: write the two pointing
angles into `beam_params`. -/
def undulator_pointing (s : Sim) (ax ay : ℚ) : Sim :=
  { s with ax := ax, ay := ay }

/-- `set_dofs` (lines 41-50): write the angles, propagate inside
`try/except`, record failure in the flag.  Total: the only fallible call
is `propagate`, and it is caught. -/
def set_dofs (propagate : Sim → Sim × Bool) (st : UPState) (ax ay : ℚ) : UPState :=
  let r := propagate (undulator_pointing st.sim ax ay)
  { sim := r.1, propagation_failed := !r.2 }

/-- `get_observation` (lines 53-56): the `hx2_shared` centroid, read
unconditionally. -/
def get_observation (st : UPState) : ℚ × ℚ :=
  (st.sim.hx2_cx, st.sim.hx2_cy)

/-- `evaluate_objective` (lines 58-62): the penalty when the flag is set,
otherwise the Euclidean centroid offset. -/
noncomputable def evaluate_objective (st : UPState) : ℝ :=
  if st.propagation_failed then ((LARGE_PENALTY : ℚ) : ℝ)
  else
    let o := get_observation st
    Real.sqrt ((o.1 : ℝ) ^ 2 + (o.2 : ℝ) ^ 2)

/-- `get_bounds` (lines 64-68). -/
def get_bounds : List (ℚ × ℚ) :=
  [((0 : ℚ) - 2.5e-6, (0 : ℚ) + 2.5e-6), ((0 : ℚ) - 2.5e-6, (0 : ℚ) + 2.5e-6)]

end UndulatorPointingTask

/-- State of a `BeamSteeringTask`. -/
structure BSState where
  sim : Sim
  propagation_failed : Bool
deriving DecidableEq, Repr

namespace BeamSteeringTask

/-- `set_dofs` (lines 80-88): move `mr1l4_pitch` to `values[0]`, propagate
inside `try/except`. -/
def set_dofs (propagate : Sim → Sim × Bool) (st : BSState) (v : ℚ) : BSState :=
  let r := propagate { st.sim with mr1l4_pitch := v }
  { sim := r.1, propagation_failed := !r.2 }

/-- `get_observation` (lines 90-92): the `DG1_YAG` horizontal centroid. -/
def get_observation (st : BSState) : ℚ :=
  st.sim.dg1_cx

/-- `evaluate_objective` (lines 94-98). -/
noncomputable def evaluate_objective (st : BSState) : ℝ :=
  if st.propagation_failed then ((LARGE_PENALTY : ℚ) : ℝ)
  else |((get_observation st : ℚ) : ℝ)|

/-- `get_bounds` (lines 100-102). -/
def get_bounds : List (ℚ × ℚ) :=
  [((-0.000552 : ℚ) - 1.5e-6, (-0.000552 : ℚ) + 1.5e-6)]

end BeamSteeringTask

/-- State of a `TransfocatorTask`: the adapter, the list of positions (in
`tfs_list`) of the lenses found enabled at construction, and the flag. -/
structure TFState where
  sim : Sim
  enabled_idx : List ℕ
  propagation_failed : Bool
deriving DecidableEq, Repr

namespace TransfocatorTask

/-- Constructor (lines 111-118): freeze the enabled-lens positions.  The
`start=2` of the source's `enumerate` only shifts the motor attribute
names, not which lenses are selected. -/
def init (sim : Sim) : TFState :=
  { sim := sim,
    enabled_idx := (sim.tfs_list.enum.filter (fun p => p.2.enabled)).map (fun p => p.1),
    propagation_failed := false }

/-- Write candidate slots `2*idx` and `2*idx+1` to the `x`/`y` motors of
the `idx`-th enabled lens (lines 128-130).  Indexing is in range whenever
the candidate has one pair of values per enabled lens, the only shape the
optimizers produce from `get_bounds`. -/
def writeLenses (tl : List Lens) (enabled_idx : List ℕ) (values : List ℚ) : List Lens :=
  enabled_idx.enum.foldl
    (fun acc p =>
      (acc.modify (fun lens => { lens with x := values.getD (2 * p.1) 0 }) p.2).modify
        (fun lens => { lens with y := values.getD (2 * p.1 + 1) 0 }) p.2)
    tl

/-- `set_dofs` (lines 127-137): move the enabled lens motors, propagate
inside `try/except`. -/
def set_dofs (propagate : Sim → Sim × Bool) (st : TFState) (values : List ℚ) : TFState :=
  let r := propagate { st.sim with tfs_list := writeLenses st.sim.tfs_list st.enabled_idx values }
  { sim := r.1, enabled_idx := st.enabled_idx, propagation_failed := !r.2 }

/-- `get_observation` (lines 139-144): centroid and widths at `DG2_YAG`. -/
def get_observation (st : TFState) : ℚ × ℚ × ℚ × ℚ :=
  (st.sim.dg2_cx, st.sim.dg2_cy, st.sim.dg2_wx, st.sim.dg2_wy)

/-- `evaluate_objective` (lines 146-150): Euclidean centroid offset plus
width asymmetry. -/
noncomputable def evaluate_objective (st : TFState) : ℝ :=
  if st.propagation_failed then ((LARGE_PENALTY : ℚ) : ℝ)
  else
    let o := get_observation st
    Real.sqrt ((o.1 : ℝ) ^ 2 + (o.2.1 : ℝ) ^ 2) + |((o.2.2.1 : ℚ) : ℝ) - ((o.2.2.2 : ℚ) : ℝ)|

/-- `get_bounds` (lines 152-157): one `(-5e-6, 5e-6)` pair per motor of
each enabled lens. -/
def get_bounds (st : TFState) : List (ℚ × ℚ) :=
  (List.range st.enabled_idx.length).flatMap
    (fun _ => [((-5e-6 : ℚ), (5e-6 : ℚ)), ((-5e-6 : ℚ), (5e-6 : ℚ))])

end TransfocatorTask

/-- A ray-tracing plot as read by `VonHamosTask` (centroid `cx`, `cy` and
full sizes `dx`, `dy`). -/
structure Plot where
  cx : ℚ
  cy : ℚ
  dx : ℚ
  dy : ℚ
deriving DecidableEq, Repr

/-- State of a `VonHamosTask`: the nominal pose captured at construction,
the bounds built around it, the latest plot (if any), the flag and
`last_vals`. -/
structure VHState where
  pitch0 : ℚ
  yaw0 : ℚ
  center0 : ℚ × ℚ × ℚ
  bounds : List (ℚ × ℚ)
  last_plot : Option Plot
  propagation_failed : Bool
  last_vals : List ℚ
deriving DecidableEq, Repr

namespace VonHamosTask

/-- `set_dofs` (lines 194-214): rebuild the spectrometer beamline with the
candidate pose and run a ray-tracing pass, modelled by the oracle `trace`
(`none` models a raised exception).  On success the shared plot holds the
new data and the flag clears; on failure the flag sets and `last_plot`
resets.  `last_vals` is updated either way. -/
def set_dofs (trace : ℚ → ℚ → ℚ → Option Plot) (st : VHState)
    (pitch_val yaw_val y_val : ℚ) : VHState :=
  match trace pitch_val yaw_val y_val with
  | some p =>
      { st with last_plot := some p, propagation_failed := false,
                last_vals := [pitch_val, yaw_val, y_val] }
  | none =>
      { st with propagation_failed := true, last_plot := none,
                last_vals := [pitch_val, yaw_val, y_val] }

/-- `get_dofs` (lines 191-192). -/
def get_dofs (st : VHState) : List ℚ :=
  st.last_vals

/-- `get_observation` (lines 216-223): `None` when the last trace failed
or no plot exists; otherwise centroid and half-sizes of the last plot. -/
def get_observation (st : VHState) : Option (ℚ × ℚ × ℚ × ℚ) :=
  if st.propagation_failed then none
  else
    match st.last_plot with
    | none => none
    | some p => some (p.cx, p.cy, p.dx / 2, p.dy / 2)

/-- `evaluate_objective` (lines 225-229): the penalty when the flag is
set; otherwise the metric from `get_observation()`.  Unpacking a `None`
observation would raise a `TypeError`, modelled by `none`. -/
noncomputable def evaluate_objective (st : VHState) : Option ℝ :=
  if st.propagation_failed then some ((LARGE_PENALTY : ℚ) : ℝ)
  else
    match get_observation st with
    | none => none
    | some o =>
        some (Real.sqrt ((o.1 : ℝ) ^ 2 + (o.2.1 : ℝ) ^ 2)
          + |((o.2.2.1 : ℚ) : ℝ)| + |((o.2.2.2 : ℚ) : ℝ)|)

/-- `get_bounds` (lines 231-232). -/
def get_bounds (st : VHState) : List (ℚ × ℚ) :=
  st.bounds

end VonHamosTask

/-! ### Loop lemmas shared by the optimizer claims -/

theorem optStep_log {σ : Type} (acc : OptRun σ) (i : ℕ) (cand : List ℚ)
    (s' : σ) (cost : ℚ) :
    (optStep acc i cand s' cost).log = acc.log ++ [⟨i, cost, cand⟩] := by
  unfold optStep
  split <;> rfl

theorem trialStep_log {σ : Type} (T : OptTask σ) (acc : OptRun σ) (i : ℕ)
    (cand : List ℚ) :
    (trialStep T acc i cand).log
      = acc.log ++ [⟨i, (runTrial T acc.state cand).2, cand⟩] :=
  optStep_log ..

theorem trialStep_log_length {σ : Type} (T : OptTask σ) (acc : OptRun σ)
    (i : ℕ) (cand : List ℚ) :
    (trialStep T acc i cand).log.length = acc.log.length + 1 := by
  rw [trialStep_log]
  simp

theorem foldl_trialStep_log_dofs {σ : Type} (T : OptTask σ) :
    ∀ (l : List (ℕ × List ℚ)) (acc : OptRun σ),
      ((l.foldl (fun a p => trialStep T a p.1 p.2) acc).log).map (fun e => e.dofs)
        = acc.log.map (fun e => e.dofs) ++ l.map (fun p => p.2)
  | [], acc => by simp
  | p :: t, acc => by
      rw [List.foldl_cons, foldl_trialStep_log_dofs T t _, trialStep_log]
      simp

theorem foldl_trialStep_log_length {σ : Type} (T : OptTask σ)
    (l : List (ℕ × List ℚ)) (acc : OptRun σ) :
    (l.foldl (fun a p => trialStep T a p.1 p.2) acc).log.length
      = acc.log.length + l.length := by
  have h := congrArg List.length (foldl_trialStep_log_dofs T l acc)
  simpa using h

/-- Run invariant for a task all of whose trials raise: every logged cost
is the penalty, and the running best is the penalty once a trial has run
(`float("inf")` before the first one). -/
def PenaltyInv {σ : Type} (acc : OptRun σ) : Prop :=
  (∀ e ∈ acc.log, e.cost = LARGE_PENALTY) ∧
  acc.best_cost
    = (if acc.log = [] then (⊤ : WithTop ℚ) else ((LARGE_PENALTY : ℚ) : WithTop ℚ))

theorem runTrial_of_raising {σ : Type} (T : OptTask σ)
    (hfail : ∀ s v, ∃ s', T.set_dofs s v = Except.error s')
    (s : σ) (cand : List ℚ) : (runTrial T s cand).2 = LARGE_PENALTY := by
  obtain ⟨s', h⟩ := hfail s cand
  simp [runTrial, h]

theorem trialStep_penaltyInv {σ : Type} (T : OptTask σ)
    (hfail : ∀ s v, ∃ s', T.set_dofs s v = Except.error s')
    (acc : OptRun σ) (i : ℕ) (cand : List ℚ)
    (h : PenaltyInv acc) : PenaltyInv (trialStep T acc i cand) := by
  obtain ⟨hlog, hbest⟩ := h
  have hc : (runTrial T acc.state cand).2 = LARGE_PENALTY :=
    runTrial_of_raising T hfail acc.state cand
  constructor
  · intro e he
    rw [trialStep_log, hc] at he
    rcases List.mem_append.mp he with h1 | h1
    · exact hlog e h1
    · rw [List.mem_singleton.mp h1]
  · have hlog' : (optStep acc i cand (runTrial T acc.state cand).1
        (runTrial T acc.state cand).2).log ≠ [] := by
      rw [optStep_log]
      simp
    show (optStep acc i cand (runTrial T acc.state cand).1
        (runTrial T acc.state cand).2).best_cost
      = if (optStep acc i cand (runTrial T acc.state cand).1
          (runTrial T acc.state cand).2).log = []
        then (⊤ : WithTop ℚ) else ((LARGE_PENALTY : ℚ) : WithTop ℚ)
    rw [if_neg hlog']
    unfold optStep
    rw [hc, hbest]
    by_cases hl : acc.log = []
    · rw [if_pos hl]
      simp [WithTop.coe_lt_top]
    · rw [if_neg hl]
      simp

theorem foldl_trialStep_penaltyInv {σ : Type} (T : OptTask σ)
    (hfail : ∀ s v, ∃ s', T.set_dofs s v = Except.error s') :
    ∀ (l : List (ℕ × List ℚ)) (acc : OptRun σ), PenaltyInv acc →
      PenaltyInv (l.foldl (fun a p => trialStep T a p.1 p.2) acc)
  | [], _, h => h
  | p :: t, acc, h =>
      foldl_trialStep_penaltyInv T hfail t _
        (trialStep_penaltyInv T hfail acc p.1 p.2 h)

theorem penaltyInv_init {σ : Type} (s0 : σ) : PenaltyInv (optInit s0) := by
  constructor
  · intro e he
    simp [optInit] at he
  · rfl

theorem random_search_eq_foldl {σ : Type} (T : OptTask σ) (draw : ℕ → List ℚ)
    (n : ℕ) (s0 : σ) :
    random_search T draw n s0
      = (((List.range n).map (fun i => (i, draw i))).foldl
          (fun a p => trialStep T a p.1 p.2) (optInit s0)) := by
  rw [List.foldl_map]
  rfl

theorem bayesStep_fst {σ : Type} (T : OptTask σ)
    (ask : List (List ℚ × ℚ) → List ℚ) (acc : OptRun σ × List (List ℚ × ℚ))
    (i : ℕ) : (bayesStep T ask acc i).1 = trialStep T acc.1 i (ask acc.2) :=
  rfl

theorem bayes_foldl_penaltyInv {σ : Type} (T : OptTask σ)
    (ask : List (List ℚ × ℚ) → List ℚ)
    (hfail : ∀ s v, ∃ s', T.set_dofs s v = Except.error s') :
    ∀ (l : List ℕ) (acc : OptRun σ × List (List ℚ × ℚ)), PenaltyInv acc.1 →
      PenaltyInv ((l.foldl (bayesStep T ask) acc).1) ∧
      ((l.foldl (bayesStep T ask) acc).1).log.length
        = acc.1.log.length + l.length
  | [], _, h => ⟨h, rfl⟩
  | i :: t, acc, h => by
      have h1 : PenaltyInv ((bayesStep T ask acc i).1) := by
        rw [bayesStep_fst]
        exact trialStep_penaltyInv T hfail acc.1 i (ask acc.2) h
      have h2 := bayes_foldl_penaltyInv T ask hfail t (bayesStep T ask acc i) h1
      refine ⟨h2.1, ?_⟩
      rw [List.foldl_cons, h2.2, bayesStep_fst, trialStep_log_length]
      simp [Nat.add_assoc, Nat.add_comm 1 t.length]

/-! ### Grid-size lemmas -/

theorem linspace_length (low high : ℚ) (num : ℕ) :
    (linspace low high num).length = num := by
  unfold linspace
  split
  · rw [List.length_replicate]
  · rw [List.length_map, List.length_range]

theorem swap01_nil {α : Type} : swap01 ([] : List α) = [] := rfl

theorem swap01_singleton {α : Type} (a : α) : swap01 [a] = [a] := rfl

theorem swap01_cons_cons {α : Type} (a b : α) (t : List α) :
    swap01 (a :: b :: t) = b :: a :: t := rfl

theorem map_swap01 {α β : Type} (f : α → β) :
    ∀ l : List α, (swap01 l).map f = swap01 (l.map f)
  | [] => rfl
  | [_] => rfl
  | _ :: _ :: _ => rfl

theorem prod_swap01 : ∀ l : List ℕ, (swap01 l).prod = l.prod
  | [] => rfl
  | [_] => rfl
  | a :: b :: t => by
      rw [swap01_cons_cons]
      simp [mul_left_comm]

theorem map_length_cons_map (c : List (List ℚ)) : ∀ xs : List ℚ,
    (List.map List.length (xs.map fun x => c.map (fun r => x :: r)))
      = List.replicate xs.length c.length
  | [] => rfl
  | x :: t => by
      rw [List.map_cons, List.map_cons, List.length_map, map_length_cons_map c t,
        List.length_cons, List.replicate_succ]

theorem cartProd_length : ∀ L : List (List ℚ),
    (cartProd L).length = (L.map List.length).prod
  | [] => rfl
  | xs :: rest => by
      show (xs.flatMap fun x => (cartProd rest).map (fun r => x :: r)).length = _
      rw [List.length_flatMap, ← List.map_map, map_length_cons_map,
        List.sum_replicate, smul_eq_mul, cartProd_length rest,
        List.map_cons, List.prod_cons]

theorem meshgridPoints_length (axes : List (List ℚ)) :
    (meshgridPoints axes).length = (axes.map List.length).prod := by
  unfold meshgridPoints
  rw [List.length_map, cartProd_length, map_swap01, prod_swap01]

theorem axes_lengths (p : ℕ) : ∀ bounds : List (ℚ × ℚ),
    ((bounds.map (fun b => linspace b.1 b.2 p)).map List.length)
      = List.replicate bounds.length p
  | [] => rfl
  | b :: t => by
      simp [linspace_length, axes_lengths p t, List.replicate_succ]

theorem gridCandidates_length (bounds : List (ℚ × ℚ)) (p : ℕ) :
    (gridCandidates bounds p).length = p ^ bounds.length := by
  unfold gridCandidates
  rw [meshgridPoints_length, axes_lengths, List.prod_replicate]

/-! ### Claims about the optimizer loop -/

/-- C10: with a zero trial budget (`n_trials=0` for `random_search`,
`n_calls=0` for `bayesian_optimization`) the loop body never runs: the
task state is untouched, nothing is logged, and the returned pair is the
sentinel `(None, float("inf"))`. -/
theorem C10_zero_budget_sentinel {σ : Type} (T : OptTask σ) (draw : ℕ → List ℚ)
    (ask : List (List ℚ × ℚ) → List ℚ) (s0 : σ) :
    (random_search T draw 0 s0).best_dofs = none ∧
    (random_search T draw 0 s0).best_cost = (⊤ : WithTop ℚ) ∧
    (random_search T draw 0 s0).log = [] ∧
    (random_search T draw 0 s0).state = s0 ∧
    (bayesian_optimization T ask 0 s0).1.best_dofs = none ∧
    (bayesian_optimization T ask 0 s0).1.best_cost = (⊤ : WithTop ℚ) ∧
    (bayesian_optimization T ask 0 s0).1.log = [] ∧
    (bayesian_optimization T ask 0 s0).1.state = s0 :=
  ⟨rfl, rfl, rfl, rfl, rfl, rfl, rfl, rfl⟩

/-- C1: against a task whose `set_dofs` always raises, each of the three
strategies substitutes `LARGE_PENALTY` for every trial's cost and
proceeds: the log gets exactly one entry per trial, every logged cost is
the penalty constant, and once at least one trial has run the returned
`best_cost` is the penalty constant. -/
theorem C1_penalty_on_exception {σ : Type} (T : OptTask σ)
    (hfail : ∀ s v, ∃ s', T.set_dofs s v = Except.error s') :
    (∀ (draw : ℕ → List ℚ) (n : ℕ) (s0 : σ),
        (random_search T draw n s0).log.length = n ∧
        (∀ e ∈ (random_search T draw n s0).log, e.cost = LARGE_PENALTY) ∧
        (0 < n →
          (random_search T draw n s0).best_cost
            = ((LARGE_PENALTY : ℚ) : WithTop ℚ))) ∧
    (∀ (p : ℕ) (s0 : σ),
        (grid_search T p s0).log.length = p ^ T.bounds.length ∧
        (∀ e ∈ (grid_search T p s0).log, e.cost = LARGE_PENALTY) ∧
        (0 < p →
          (grid_search T p s0).best_cost
            = ((LARGE_PENALTY : ℚ) : WithTop ℚ))) ∧
    (∀ (ask : List (List ℚ × ℚ) → List ℚ) (n : ℕ) (s0 : σ),
        (bayesian_optimization T ask n s0).1.log.length = n ∧
        (∀ e ∈ (bayesian_optimization T ask n s0).1.log, e.cost = LARGE_PENALTY) ∧
        (0 < n →
          (bayesian_optimization T ask n s0).1.best_cost
            = ((LARGE_PENALTY : ℚ) : WithTop ℚ))) := by
  have hbest_of : ∀ r : OptRun σ, PenaltyInv r → r.log ≠ [] →
      r.best_cost = ((LARGE_PENALTY : ℚ) : WithTop ℚ) := by
    intro r hr hne
    rw [hr.2, if_neg hne]
  refine ⟨?_, ?_, ?_⟩
  · intro draw n s0
    rw [random_search_eq_foldl]
    have hinv := foldl_trialStep_penaltyInv T hfail
      ((List.range n).map (fun i => (i, draw i))) (optInit s0) (penaltyInv_init s0)
    have hlen := foldl_trialStep_log_length T
      ((List.range n).map (fun i => (i, draw i))) (optInit s0)
    have hlen' : (((List.range n).map (fun i => (i, draw i))).foldl
        (fun a p => trialStep T a p.1 p.2) (optInit s0)).log.length = n := by
      simpa [optInit] using hlen
    refine ⟨hlen', hinv.1, fun hn => ?_⟩
    refine hbest_of _ hinv ?_
    intro hnil
    rw [hnil] at hlen'
    simp at hlen'
    omega
  · intro p s0
    have hde : grid_search T p s0
        = (gridCandidates T.bounds p).enum.foldl
            (fun a q => trialStep T a q.1 q.2) (optInit s0) := rfl
    have hinv : PenaltyInv (grid_search T p s0) := by
      rw [hde]
      exact foldl_trialStep_penaltyInv T hfail _ _ (penaltyInv_init s0)
    have hlen' : (grid_search T p s0).log.length = p ^ T.bounds.length := by
      rw [hde, foldl_trialStep_log_length]
      simp [optInit, List.enum_length, gridCandidates_length]
    refine ⟨hlen', hinv.1, fun hp => ?_⟩
    refine hbest_of _ hinv ?_
    intro hnil
    rw [hnil] at hlen'
    have hpow : 0 < p ^ T.bounds.length := pow_pos hp _
    simp at hlen'
    omega
  · intro ask n s0
    have hde : bayesian_optimization T ask n s0
        = (List.range n).foldl (bayesStep T ask) (optInit s0, []) := rfl
    have h := bayes_foldl_penaltyInv T ask hfail (List.range n) (optInit s0, [])
      (penaltyInv_init s0)
    have hinv : PenaltyInv (bayesian_optimization T ask n s0).1 := by
      rw [hde]
      exact h.1
    have hlen' : (bayesian_optimization T ask n s0).1.log.length = n := by
      rw [hde, h.2]
      simp [optInit]
    refine ⟨hlen', hinv.1, fun hn => ?_⟩
    refine hbest_of _ hinv ?_
    intro hnil
    rw [hnil] at hlen'
    simp at hlen'
    omega

/-- Witness task for the exception-isolation claim: `set_dofs` always
raises. -/
def failTask : OptTask Unit :=
  { bounds := [(0, 1)],
    set_dofs := fun _ _ => Except.error (),
    evaluate_objective := fun _ => none }

theorem C1_penalty_on_exception_witness :
    (random_search failTask (fun _ => [0]) 2 ()).log.length = 2 ∧
    (∀ e ∈ (random_search failTask (fun _ => [0]) 2 ()).log,
        e.cost = LARGE_PENALTY) ∧
    (random_search failTask (fun _ => [0]) 2 ()).best_cost
      = ((LARGE_PENALTY : ℚ) : WithTop ℚ) := by
  have h := (C1_penalty_on_exception failTask
    (fun _ _ => ⟨(), rfl⟩)).1 (fun _ => [0]) 2 ()
  exact ⟨h.1, h.2.1, h.2.2 (by decide)⟩

/-! ### Order and coverage of the grid (`np.meshgrid` semantics) -/

theorem flatMap_comm_perm {α β γ : Type} (a : List α) (b : List β)
    (f : α → β → List γ) :
    (a.flatMap fun x => b.flatMap fun y => f x y).Perm
      (b.flatMap fun y => a.flatMap fun x => f x y) := by
  induction a with
  | nil => simp
  | cons x a' ih =>
      simp only [List.flatMap_cons]
      exact (List.Perm.append_left _ ih).trans
        (List.flatMap_append_perm b (fun y => f x y)
          (fun y => a'.flatMap fun x' => f x' y))

theorem swap01_swap01 {α : Type} : ∀ l : List α, swap01 (swap01 l) = l
  | [] => rfl
  | [_] => rfl
  | _ :: _ :: _ => rfl

theorem mem_swap01 {α : Type} (a : α) : ∀ l : List α, a ∈ swap01 l ↔ a ∈ l
  | [] => Iff.rfl
  | [_] => Iff.rfl
  | x :: y :: t => by
      rw [swap01_cons_cons]
      simp only [List.mem_cons]
      tauto

theorem cartProd_singleton : ∀ a : List ℚ, cartProd [a] = a.map (fun x => [x])
  | [] => rfl
  | x :: a' => by
      show ((x :: a').flatMap fun z => (cartProd []).map (fun r => z :: r)) = _
      rw [List.flatMap_cons]
      rw [show (a'.flatMap fun z => (cartProd []).map (fun r => z :: r))
          = cartProd [a'] from rfl]
      rw [cartProd_singleton a', List.map_cons]
      rfl

theorem map_map_cons (x y : ℚ) : ∀ c : List (List ℚ),
    ((c.map (fun r => y :: r)).map (fun r => x :: r)) = c.map (fun r => x :: y :: r)
  | [] => rfl
  | r :: c' => by
      simp only [List.map_cons, map_map_cons x y c']

theorem map_swap01_cons_cons (x y : ℚ) : ∀ c : List (List ℚ),
    ((c.map (fun r => y :: x :: r)).map swap01) = c.map (fun r => x :: y :: r)
  | [] => rfl
  | r :: c' => by
      simp only [List.map_cons, map_swap01_cons_cons x y c', swap01_cons_cons]

theorem map_flatMap_cons (x : ℚ) (c : List (List ℚ)) : ∀ b : List ℚ,
    ((b.flatMap fun y => c.map (fun r => y :: r)).map (fun r => x :: r))
      = b.flatMap (fun y => c.map (fun r => x :: y :: r))
  | [] => rfl
  | y :: b' => by
      simp only [List.flatMap_cons, List.map_append, map_map_cons x y c,
        map_flatMap_cons x c b']

theorem map_flatMap_swap (y : ℚ) (c : List (List ℚ)) : ∀ a : List ℚ,
    (((a.flatMap fun x => c.map (fun r => x :: r)).map (fun r => y :: r)).map swap01)
      = a.flatMap (fun x => c.map (fun r => x :: y :: r))
  | [] => rfl
  | x :: a' => by
      simp only [List.flatMap_cons, List.map_append, map_map_cons y x c,
        map_swap01_cons_cons x y c, map_flatMap_swap y c a']

theorem cartProd_cons_cons (a b : List ℚ) (t : List (List ℚ)) :
    cartProd (a :: b :: t)
      = a.flatMap (fun x => b.flatMap fun y => (cartProd t).map (fun r => x :: y :: r)) := by
  rw [show cartProd (a :: b :: t)
      = a.flatMap (fun x => (cartProd (b :: t)).map (fun r => x :: r)) from rfl]
  rw [show cartProd (b :: t)
      = b.flatMap (fun y => (cartProd t).map (fun r => y :: r)) from rfl]
  induction a with
  | nil => rfl
  | cons x a' ih =>
      simp only [List.flatMap_cons, map_flatMap_cons x (cartProd t) b, ih]

theorem cartProd_cons_cons_swap (a b : List ℚ) (t : List (List ℚ)) :
    (cartProd (b :: a :: t)).map swap01
      = b.flatMap (fun y => a.flatMap fun x => (cartProd t).map (fun r => x :: y :: r)) := by
  rw [show cartProd (b :: a :: t)
      = b.flatMap (fun y => (cartProd (a :: t)).map (fun r => y :: r)) from rfl]
  rw [show cartProd (a :: t)
      = a.flatMap (fun x => (cartProd t).map (fun r => x :: r)) from rfl]
  induction b with
  | nil => rfl
  | cons y b' ih =>
      simp only [List.flatMap_cons, List.map_append,
        map_flatMap_swap y (cartProd t) a, ih]

theorem meshgridPoints_perm_cartProd : ∀ axes : List (List ℚ),
    (meshgridPoints axes).Perm (cartProd axes)
  | [] => List.Perm.refl _
  | [a] => by
      have h : meshgridPoints [a] = cartProd [a] := by
        show (cartProd [a]).map swap01 = cartProd [a]
        rw [cartProd_singleton, List.map_map]
        rfl
      exact h ▸ List.Perm.refl _
  | a :: b :: t => by
      show ((cartProd (b :: a :: t)).map swap01).Perm (cartProd (a :: b :: t))
      rw [cartProd_cons_cons_swap, cartProd_cons_cons]
      exact flatMap_comm_perm b a (fun y x => (cartProd t).map (fun r => x :: y :: r))

theorem linspace_nodup (low high : ℚ) (h : low < high) (num : ℕ) :
    (linspace low high num).Nodup := by
  unfold linspace
  split
  · rename_i hn
    exact List.nodup_replicate.mpr hn
  · rename_i hn
    refine List.Nodup.map ?_ (List.nodup_range num)
    intro i j hij
    have hnum : (1 : ℚ) < (num : ℚ) := by
      exact_mod_cast (by omega : 1 < num)
    have hD : ((num : ℚ) - 1) ≠ 0 := sub_ne_zero.mpr (ne_of_gt hnum)
    have ha : high - low ≠ 0 := sub_ne_zero.mpr (ne_of_gt h)
    have h1 : (high - low) * (i : ℚ) / ((num : ℚ) - 1)
        = (high - low) * (j : ℚ) / ((num : ℚ) - 1) := add_left_cancel hij
    have h2 : (high - low) * (i : ℚ) = (high - low) * (j : ℚ) := by
      have := congrArg (fun z => z * ((num : ℚ) - 1)) h1
      simpa [div_mul_cancel₀, hD] using this
    have h3 : (i : ℚ) = (j : ℚ) := mul_left_cancel₀ ha h2
    exact_mod_cast h3

theorem cartProd_nodup : ∀ L : List (List ℚ), (∀ ax ∈ L, ax.Nodup) →
    (cartProd L).Nodup
  | [], _ => by
      show ([[]] : List (List ℚ)).Nodup
      simp
  | xs :: rest, h => by
      show (xs.flatMap fun x => (cartProd rest).map (fun r => x :: r)).Nodup
      rw [List.nodup_flatMap]
      constructor
      · intro x _
        refine List.Nodup.map ?_
          (cartProd_nodup rest (fun ax hax => h ax (List.mem_cons_of_mem _ hax)))
        intro r1 r2 hr
        injection hr
      · have hxs : xs.Nodup := h xs (List.mem_cons_self xs rest)
        refine hxs.imp ?_
        intro x1 x2 hne c hc1 hc2
        obtain ⟨r1, _, hr1⟩ := List.mem_map.mp hc1
        obtain ⟨r2, _, hr2⟩ := List.mem_map.mp hc2
        apply hne
        rw [← hr1] at hr2
        injection hr2 with h1 _
        exact h1.symm

theorem meshgridPoints_nodup (axes : List (List ℚ))
    (h : ∀ ax ∈ axes, ax.Nodup) : (meshgridPoints axes).Nodup := by
  unfold meshgridPoints
  refine List.Nodup.map (Function.LeftInverse.injective swap01_swap01) ?_
  exact cartProd_nodup _ (fun ax hax => h ax ((mem_swap01 ax axes).mp hax))

/-- C5 (amended): for a task whose bounds are proper intervals,
`grid_search` with `points_per_dim = p` over `d` DOFs evaluates exactly
`p ^ d` candidates, visiting every combination of the `p` evenly spaced
values per DOF axis exactly once (the visited sequence is duplicate-free
and is a permutation of the tensor-product grid); the visiting order is
the row-major flattening of `np.meshgrid`'s default xy-indexed grid, in
which the first two DOF axes are exchanged — for `d ≥ 2` the second
DOF's axis varies slowest and the first DOF's axis faster than it — not
the row-major order with the first DOF's axis slowest. -/
theorem C5_grid_full_coverage {σ : Type} (T : OptTask σ) (p : ℕ) (s0 : σ)
    (hb : ∀ b ∈ T.bounds, b.1 < b.2) :
    ((grid_search T p s0).log.map (fun e => e.dofs)
        = (cartProd (swap01 (T.bounds.map (fun b => linspace b.1 b.2 p)))).map swap01) ∧
    (grid_search T p s0).log.length = p ^ T.bounds.length ∧
    ((grid_search T p s0).log.map (fun e => e.dofs)).Perm
        (cartProd (T.bounds.map (fun b => linspace b.1 b.2 p))) ∧
    ((grid_search T p s0).log.map (fun e => e.dofs)).Nodup := by
  have hde : grid_search T p s0
      = (gridCandidates T.bounds p).enum.foldl
          (fun a q => trialStep T a q.1 q.2) (optInit s0) := rfl
  have hlog : (grid_search T p s0).log.map (fun e => e.dofs)
      = gridCandidates T.bounds p := by
    rw [hde, foldl_trialStep_log_dofs]
    rw [show (optInit s0).log = ([] : List TrialEntry) from rfl]
    rw [List.map_nil, List.nil_append]
    exact List.enum_map_snd (gridCandidates T.bounds p)
  have haxes : ∀ ax ∈ T.bounds.map (fun b => linspace b.1 b.2 p), ax.Nodup := by
    intro ax hax
    obtain ⟨b, hbmem, rfl⟩ := List.mem_map.mp hax
    exact linspace_nodup b.1 b.2 (hb b hbmem) p
  refine ⟨hlog, ?_, ?_, ?_⟩
  · rw [hde, foldl_trialStep_log_length]
    simp [optInit, List.enum_length, gridCandidates_length]
  · rw [hlog]
    exact meshgridPoints_perm_cartProd (T.bounds.map (fun b => linspace b.1 b.2 p))
  · rw [hlog]
    exact meshgridPoints_nodup (T.bounds.map (fun b => linspace b.1 b.2 p)) haxes

/-- Witness task for the grid-order claims: two DOFs, unit bounds, a
trivially succeeding evaluation. -/
def gridTask2 : OptTask Unit :=
  { bounds := [(0, 1), (0, 1)],
    set_dofs := fun s _ => Except.ok s,
    evaluate_objective := fun _ => some 0 }

theorem C5_grid_full_coverage_witness :
    ((grid_search gridTask2 2 ()).log.map (fun e => e.dofs)
        = (cartProd (swap01 (gridTask2.bounds.map (fun b => linspace b.1 b.2 2)))).map swap01) ∧
    (grid_search gridTask2 2 ()).log.length = 2 ^ gridTask2.bounds.length ∧
    ((grid_search gridTask2 2 ()).log.map (fun e => e.dofs)).Perm
        (cartProd (gridTask2.bounds.map (fun b => linspace b.1 b.2 2))) ∧
    ((grid_search gridTask2 2 ()).log.map (fun e => e.dofs)).Nodup :=
  C5_grid_full_coverage gridTask2 2 () (by decide)

/-- C5 counterexample: with bounds `[(0,1),(0,1)]` and
`points_per_dim = 2` the code visits `[0,0],[1,0],[0,1],[1,1]` — the
first DOF's axis varies fastest — while the claimed row-major order with
the first DOF's axis slowest would be `[0,0],[0,1],[1,0],[1,1]`. -/
theorem C5_counterexample :
    ((grid_search gridTask2 2 ()).log.map (fun e => e.dofs)
        = [[0, 0], [1, 0], [0, 1], [1, 1]]) ∧
    cartProd (gridTask2.bounds.map (fun b => linspace b.1 b.2 2))
        = [[0, 0], [0, 1], [1, 0], [1, 1]] ∧
    ¬ ((grid_search gridTask2 2 ()).log.map (fun e => e.dofs)
        = cartProd (gridTask2.bounds.map (fun b => linspace b.1 b.2 2))) := by
  have hlog : (grid_search gridTask2 2 ()).log.map (fun e => e.dofs)
      = gridCandidates gridTask2.bounds 2 := by
    rw [show grid_search gridTask2 2 ()
        = (gridCandidates gridTask2.bounds 2).enum.foldl
            (fun a q => trialStep gridTask2 a q.1 q.2) (optInit ()) from rfl,
      foldl_trialStep_log_dofs]
    rw [show (optInit ()).log = ([] : List TrialEntry) from rfl]
    rw [List.map_nil, List.nil_append]
    exact List.enum_map_snd (gridCandidates gridTask2.bounds 2)
  have hlin : linspace 0 1 2 = [0, 1] := by
    unfold linspace
    norm_num [List.range_succ]
  have hmapb : gridTask2.bounds.map (fun b => linspace b.1 b.2 2)
      = [[0, 1], [0, 1]] := by
    rw [show gridTask2.bounds.map (fun b => linspace b.1 b.2 2)
        = [linspace 0 1 2, linspace 0 1 2] from rfl, hlin]
  have hcand : gridCandidates gridTask2.bounds 2 = [[0, 0], [1, 0], [0, 1], [1, 1]] := by
    show meshgridPoints (gridTask2.bounds.map (fun b => linspace b.1 b.2 2)) = _
    rw [hmapb]
    rfl
  have hcart : cartProd (gridTask2.bounds.map (fun b => linspace b.1 b.2 2))
      = [[0, 0], [0, 1], [1, 0], [1, 1]] := by
    rw [hmapb]
    rfl
  refine ⟨?_, hcart, ?_⟩
  · rw [hlog, hcand]
  · rw [hlog, hcand, hcart]
    simp

/-! ### Claims about the trial logger -/

theorem logAll_after_header (items : List (ℕ × List ℚ × ℚ)) :
    ∀ L : HistoryLogger, L.real_time_csv = true → L.header_written = true →
      (L.logAll items).file
        = L.file ++ items.map (fun it => CsvRow.data it.1 it.2.2 it.2.1) := by
  induction items with
  | nil =>
      intro L _ _
      simp [HistoryLogger.logAll]
  | cons it t ih =>
      intro L h hw
      show ((L.log it.1 it.2.1 it.2.2).logAll t).file = _
      have hstep : L.log it.1 it.2.1 it.2.2
          = { real_time_csv := L.real_time_csv,
              history := L.history ++ [⟨it.1, it.2.2, it.2.1⟩],
              header_written := L.header_written,
              file := L.file ++ [CsvRow.data it.1 it.2.2 it.2.1] } := by
        unfold HistoryLogger.log HistoryLogger.append_to_csv
        rw [h, hw]
        simp
      rw [hstep]
      rw [ih { real_time_csv := L.real_time_csv,
               history := L.history ++ [⟨it.1, it.2.2, it.2.1⟩],
               header_written := L.header_written,
               file := L.file ++ [CsvRow.data it.1 it.2.2 it.2.1] } h hw]
      simp

/-- C6: after `N ≥ 1` calls to `log` on a fresh logger with real-time CSV
enabled, all candidates of length `k`, the persisted file is exactly one
header row with columns `trial, cost, dof_0 ... dof_{k-1}` followed by
exactly `N` data rows, and the cost column of data row `i` is exactly the
`i`-th logged cost. -/
theorem C6_csv_rows (k : ℕ) (items : List (ℕ × List ℚ × ℚ))
    (hne : items ≠ []) (hlen : ∀ it ∈ items, it.2.1.length = k) :
    ((HistoryLogger.init true).logAll items).file
        = CsvRow.header
            ("trial" :: "cost" :: (List.range k).map (fun i => "dof_" ++ toString i))
          :: items.map (fun it => CsvRow.data it.1 it.2.2 it.2.1) ∧
    ((HistoryLogger.init true).logAll items).file.length = items.length + 1 ∧
    (((HistoryLogger.init true).logAll items).file.drop 1).map CsvRow.costOf
        = items.map (fun it => some it.2.2) := by
  obtain ⟨it, t, rfl⟩ := List.exists_cons_of_ne_nil hne
  have hfirst : (HistoryLogger.init true).log it.1 it.2.1 it.2.2
      = { real_time_csv := true,
          history := [⟨it.1, it.2.2, it.2.1⟩],
          header_written := true,
          file := [CsvRow.header (entryFields ⟨it.1, it.2.2, it.2.1⟩),
                   CsvRow.data it.1 it.2.2 it.2.1] } := by
    unfold HistoryLogger.init HistoryLogger.log HistoryLogger.append_to_csv
    simp
  have hfields : entryFields ⟨it.1, it.2.2, it.2.1⟩
      = "trial" :: "cost" :: (List.range k).map (fun i => "dof_" ++ toString i) := by
    unfold entryFields
    rw [show (⟨it.1, it.2.2, it.2.1⟩ : TrialEntry).dofs = it.2.1 from rfl,
      hlen it (List.mem_cons_self it t)]
  have hfile : ((HistoryLogger.init true).logAll (it :: t)).file
      = CsvRow.header
          ("trial" :: "cost" :: (List.range k).map (fun i => "dof_" ++ toString i))
        :: (it :: t).map (fun q => CsvRow.data q.1 q.2.2 q.2.1) := by
    show (((HistoryLogger.init true).log it.1 it.2.1 it.2.2).logAll t).file = _
    rw [hfirst, logAll_after_header t _ rfl rfl, hfields]
    simp
  refine ⟨hfile, ?_, ?_⟩
  · rw [hfile]
    simp
  · rw [hfile]
    simp [CsvRow.costOf]

/-- Concrete two-trial run used to witness the CSV-file claim. -/
theorem C6_csv_rows_witness :
    ((HistoryLogger.init true).logAll [(0, [1, 2], 5), (1, [3, 4], 7)]).file
        = CsvRow.header
            ("trial" :: "cost" :: (List.range 2).map (fun i => "dof_" ++ toString i))
          :: [(0, [1, 2], 5), (1, [3, 4], 7)].map
              (fun it => CsvRow.data it.1 it.2.2 it.2.1) ∧
    ((HistoryLogger.init true).logAll [(0, [1, 2], 5), (1, [3, 4], 7)]).file.length
        = [(0, [1, 2], 5), (1, [3, 4], 7)].length + 1 ∧
    ((((HistoryLogger.init true).logAll
        [(0, [1, 2], 5), (1, [3, 4], 7)]).file.drop 1)).map CsvRow.costOf
        = [(0, [1, 2], 5), (1, [3, 4], 7)].map (fun it => some it.2.2) :=
  C6_csv_rows 2 [(0, [1, 2], 5), (1, [3, 4], 7)] (by decide) (by decide)

theorem pickBest_spec : ∀ (l : List TrialEntry) (a : TrialEntry),
    (∃ l1 l2, a :: l = l1 ++ pickBest a l :: l2 ∧
        ∀ e ∈ l1, (pickBest a l).cost < e.cost) ∧
    (∀ e ∈ a :: l, (pickBest a l).cost ≤ e.cost)
  | [], a => by
      refine ⟨⟨[], [], rfl, by simp⟩, ?_⟩
      intro e he
      rw [show pickBest a [] = a from rfl]
      rw [List.mem_singleton.mp he]
  | e0 :: t, a => by
      rw [show pickBest a (e0 :: t)
          = pickBest (if e0.cost < a.cost then e0 else a) t from rfl]
      by_cases hc : e0.cost < a.cost
      · rw [if_pos hc]
        obtain ⟨⟨l1, l2, hsplit, hfst⟩, hmin⟩ := pickBest_spec t e0
        have hm0 : (pickBest e0 t).cost ≤ e0.cost :=
          hmin e0 (List.mem_cons_self e0 t)
        refine ⟨⟨a :: l1, l2, ?_, ?_⟩, ?_⟩
        · rw [List.cons_append, ← hsplit]
        · intro e he
          rcases List.mem_cons.mp he with he1 | hmem
          · rw [he1]
            exact lt_of_le_of_lt hm0 hc
          · exact hfst e hmem
        · intro e he
          rcases List.mem_cons.mp he with he1 | hmem
          · rw [he1]
            exact le_of_lt (lt_of_le_of_lt hm0 hc)
          · exact hmin e hmem
      · rw [if_neg hc]
        push_neg at hc
        obtain ⟨⟨l1, l2, hsplit, hfst⟩, hmin⟩ := pickBest_spec t a
        have hma : (pickBest a t).cost ≤ a.cost :=
          hmin a (List.mem_cons_self a t)
        cases l1 with
        | nil =>
            have h1 : a = pickBest a t := (List.cons.inj hsplit).1
            have h2 : t = l2 := (List.cons.inj hsplit).2
            refine ⟨⟨[], e0 :: l2, ?_, by simp⟩, ?_⟩
            · rw [List.nil_append, ← h1, ← h2]
            · intro e he
              rcases List.mem_cons.mp he with he1 | hmem
              · rw [he1]
                exact hma
              · rcases List.mem_cons.mp hmem with he2 | hmem'
                · rw [he2]
                  exact le_trans hma hc
                · exact hmin e (List.mem_cons_of_mem a hmem')
        | cons a' l1' =>
            have h1 : a = a' := (List.cons.inj hsplit).1
            have h2 : t = l1' ++ pickBest a t :: l2 := (List.cons.inj hsplit).2
            have hlta : (pickBest a t).cost < a.cost := by
              have h3 := hfst a' (List.mem_cons_self a' l1')
              rw [← h1] at h3
              exact h3
            refine ⟨⟨a :: e0 :: l1', l2, ?_, ?_⟩, ?_⟩
            · rw [List.cons_append, List.cons_append, ← h2]
            · intro e he
              rcases List.mem_cons.mp he with he1 | hmem
              · rw [he1]
                exact hlta
              · rcases List.mem_cons.mp hmem with he2 | hmem'
                · rw [he2]
                  exact lt_of_lt_of_le hlta hc
                · exact hfst e (List.mem_cons_of_mem a' hmem')
            · intro e he
              rcases List.mem_cons.mp he with he1 | hmem
              · rw [he1]
                exact hma
              · rcases List.mem_cons.mp hmem with he2 | hmem'
                · rw [he2]
                  exact le_trans hma hc
                · exact hmin e (List.mem_cons_of_mem a hmem')

/-- C7: `get_best_result` returns the `(None, None)` sentinel on an empty
history, and otherwise the DOFs and cost of a history entry of minimum
cost that is, among the minima, the earliest: every entry strictly before
it has strictly larger cost. -/
theorem C7_get_best_result (L : HistoryLogger) :
    (L.history = [] → L.get_best_result = (none, none)) ∧
    (L.history ≠ [] →
      ∃ best l1 l2, L.get_best_result = (some best.dofs, some best.cost) ∧
        L.history = l1 ++ best :: l2 ∧
        (∀ e ∈ L.history, best.cost ≤ e.cost) ∧
        (∀ e ∈ l1, best.cost < e.cost)) := by
  constructor
  · intro h
    unfold HistoryLogger.get_best_result
    rw [h]
  · intro h
    obtain ⟨a, t, hat⟩ := List.exists_cons_of_ne_nil h
    obtain ⟨⟨l1, l2, hsplit, hfst⟩, hmin⟩ := pickBest_spec t a
    refine ⟨pickBest a t, l1, l2, ?_, ?_, ?_, hfst⟩
    · unfold HistoryLogger.get_best_result
      rw [hat]
    · rw [hat]
      exact hsplit
    · intro e he
      rw [hat] at he
      exact hmin e he

/-- Four-trial history with costs 5, 2, 7, 2 used to witness the
best-result claim. -/
def bestHist : HistoryLogger :=
  { real_time_csv := false,
    history := [⟨0, 5, [10]⟩, ⟨1, 2, [11]⟩, ⟨2, 7, [12]⟩, ⟨3, 2, [13]⟩],
    header_written := false,
    file := [] }

theorem C7_get_best_result_witness :
    (∃ best l1 l2, bestHist.get_best_result = (some best.dofs, some best.cost) ∧
        bestHist.history = l1 ++ best :: l2 ∧
        (∀ e ∈ bestHist.history, best.cost ≤ e.cost) ∧
        (∀ e ∈ l1, best.cost < e.cost)) ∧
    bestHist.get_best_result = (some [11], some 2) :=
  ⟨(C7_get_best_result bestHist).2 (by decide), by decide⟩

/-! ### Claims about the four task variants -/

/-- Adapter state with all motors and detector readings zero. -/
def simZero : Sim :=
  { ax := 0, ay := 0, mr1l4_pitch := 0, tfs_list := [],
    hx2_cx := 0, hx2_cy := 0, dg1_cx := 0,
    dg2_cx := 0, dg2_cy := 0, dg2_wx := 0, dg2_wy := 0 }

/-- Undulator task bound to the zero adapter, no failure recorded. -/
def upZero : UPState :=
  { sim := simZero, propagation_failed := false }

/-- Undulator task in a failed state whose screen still reads (3, 4). -/
def upFailed34 : UPState :=
  { sim := { simZero with hx2_cx := 3, hx2_cy := 4 }, propagation_failed := true }

/-- Undulator task in a failed state whose screen reads (0, 0). -/
def upFailed00 : UPState :=
  { sim := simZero, propagation_failed := true }

/-- VonHamos task in a failed state. -/
def vhFailedEx : VHState :=
  { pitch0 := 0, yaw0 := 0, center0 := (0, 0, 0), bounds := [],
    last_plot := none, propagation_failed := true, last_vals := [] }

/-- C2: `set_dofs` is total on every variant — the only fallible call in
its body is the propagate / ray-tracing pass, and its failure is caught —
and the `_propagation_failed` flag records exactly whether that call
failed: set on failure, cleared on success, so the call always returns
normally. -/
theorem C2_set_dofs_never_raises :
    (∀ (propagate : Sim → Sim × Bool) (st : UPState) (ax ay : ℚ),
        (UndulatorPointingTask.set_dofs propagate st ax ay).propagation_failed
          = !(propagate (UndulatorPointingTask.undulator_pointing st.sim ax ay)).2) ∧
    (∀ (propagate : Sim → Sim × Bool) (st : BSState) (v : ℚ),
        (BeamSteeringTask.set_dofs propagate st v).propagation_failed
          = !(propagate { st.sim with mr1l4_pitch := v }).2) ∧
    (∀ (propagate : Sim → Sim × Bool) (st : TFState) (values : List ℚ),
        (TransfocatorTask.set_dofs propagate st values).propagation_failed
          = !(propagate { st.sim with
              tfs_list := TransfocatorTask.writeLenses
                st.sim.tfs_list st.enabled_idx values }).2) ∧
    (∀ (trace : ℚ → ℚ → ℚ → Option Plot) (st : VHState) (pv yv yt : ℚ),
        (VonHamosTask.set_dofs trace st pv yv yt).propagation_failed
          = (trace pv yv yt).isNone) := by
  refine ⟨fun _ _ _ _ => rfl, fun _ _ _ => rfl, fun _ _ _ => rfl,
    fun trace st pv yv yt => ?_⟩
  unfold VonHamosTask.set_dofs
  cases trace pv yv yt <;> rfl

/-- C3: immediately after any `set_dofs` call, `evaluate_objective`
returns the penalty constant when the propagation failed, and otherwise
the variant's distance metric computed from `get_observation()`; the
VonHamos variant always returns an actual value (no `TypeError` from
unpacking a missing observation). -/
theorem C3_objective_after_set_dofs :
    (∀ (propagate : Sim → Sim × Bool) (st : UPState) (ax ay : ℚ),
        ((UndulatorPointingTask.set_dofs propagate st ax ay).propagation_failed = true →
          UndulatorPointingTask.evaluate_objective
              (UndulatorPointingTask.set_dofs propagate st ax ay)
            = ((LARGE_PENALTY : ℚ) : ℝ)) ∧
        ((UndulatorPointingTask.set_dofs propagate st ax ay).propagation_failed = false →
          UndulatorPointingTask.evaluate_objective
              (UndulatorPointingTask.set_dofs propagate st ax ay)
            = Real.sqrt
                (((UndulatorPointingTask.get_observation
                      (UndulatorPointingTask.set_dofs propagate st ax ay)).1 : ℝ) ^ 2
                  + ((UndulatorPointingTask.get_observation
                      (UndulatorPointingTask.set_dofs propagate st ax ay)).2 : ℝ) ^ 2))) ∧
    (∀ (propagate : Sim → Sim × Bool) (st : BSState) (v : ℚ),
        ((BeamSteeringTask.set_dofs propagate st v).propagation_failed = true →
          BeamSteeringTask.evaluate_objective (BeamSteeringTask.set_dofs propagate st v)
            = ((LARGE_PENALTY : ℚ) : ℝ)) ∧
        ((BeamSteeringTask.set_dofs propagate st v).propagation_failed = false →
          BeamSteeringTask.evaluate_objective (BeamSteeringTask.set_dofs propagate st v)
            = |((BeamSteeringTask.get_observation
                  (BeamSteeringTask.set_dofs propagate st v) : ℚ) : ℝ)|)) ∧
    (∀ (propagate : Sim → Sim × Bool) (st : TFState) (values : List ℚ),
        ((TransfocatorTask.set_dofs propagate st values).propagation_failed = true →
          TransfocatorTask.evaluate_objective (TransfocatorTask.set_dofs propagate st values)
            = ((LARGE_PENALTY : ℚ) : ℝ)) ∧
        ((TransfocatorTask.set_dofs propagate st values).propagation_failed = false →
          TransfocatorTask.evaluate_objective (TransfocatorTask.set_dofs propagate st values)
            = Real.sqrt
                (((TransfocatorTask.get_observation
                      (TransfocatorTask.set_dofs propagate st values)).1 : ℝ) ^ 2
                  + ((TransfocatorTask.get_observation
                      (TransfocatorTask.set_dofs propagate st values)).2.1 : ℝ) ^ 2)
              + |((TransfocatorTask.get_observation
                      (TransfocatorTask.set_dofs propagate st values)).2.2.1 : ℝ)
                  - ((TransfocatorTask.get_observation
                      (TransfocatorTask.set_dofs propagate st values)).2.2.2 : ℝ)|)) ∧
    (∀ (trace : ℚ → ℚ → ℚ → Option Plot) (st : VHState) (pv yv yt : ℚ),
        (VonHamosTask.evaluate_objective
            (VonHamosTask.set_dofs trace st pv yv yt)).isSome = true ∧
        ((VonHamosTask.set_dofs trace st pv yv yt).propagation_failed = true →
          VonHamosTask.evaluate_objective (VonHamosTask.set_dofs trace st pv yv yt)
            = some ((LARGE_PENALTY : ℚ) : ℝ)) ∧
        (∀ o, VonHamosTask.get_observation (VonHamosTask.set_dofs trace st pv yv yt)
              = some o →
          VonHamosTask.evaluate_objective (VonHamosTask.set_dofs trace st pv yv yt)
            = some (Real.sqrt ((o.1 : ℝ) ^ 2 + (o.2.1 : ℝ) ^ 2)
                + |(o.2.2.1 : ℝ)| + |(o.2.2.2 : ℝ)|))) := by
  refine ⟨fun propagate st ax ay => ⟨fun h => ?_, fun h => ?_⟩,
    fun propagate st v => ⟨fun h => ?_, fun h => ?_⟩,
    fun propagate st values => ⟨fun h => ?_, fun h => ?_⟩,
    fun trace st pv yv yt => ?_⟩
  · simp [UndulatorPointingTask.evaluate_objective, h]
  · simp [UndulatorPointingTask.evaluate_objective, h]
  · simp [BeamSteeringTask.evaluate_objective, h]
  · simp [BeamSteeringTask.evaluate_objective, h]
  · simp [TransfocatorTask.evaluate_objective, h]
  · simp [TransfocatorTask.evaluate_objective, h]
  · unfold VonHamosTask.set_dofs
    cases htr : trace pv yv yt with
    | some p =>
        refine ⟨rfl, fun h => ?_, fun o ho => ?_⟩
        · exact absurd h (by simp)
        · simp only [VonHamosTask.get_observation] at ho
          simp only [VonHamosTask.evaluate_objective, VonHamosTask.get_observation]
          simp at ho
          rw [← ho]
          simp
    | none =>
        refine ⟨rfl, fun _ => rfl, fun o ho => ?_⟩
        exact absurd ho (by simp [VonHamosTask.get_observation])

/-- C3 witness: a propagate oracle that always fails drives the
undulator task into the failed state, where the objective is the penalty
constant. -/
theorem C3_objective_after_set_dofs_witness :
    UndulatorPointingTask.evaluate_objective
        (UndulatorPointingTask.set_dofs (fun s => (s, false)) upZero 0 0)
      = ((LARGE_PENALTY : ℚ) : ℝ) :=
  ((C3_objective_after_set_dofs).1 (fun s => (s, false)) upZero 0 0).1 rfl

/-- C4 (amended): only the VonHamos variant returns the null
"no observation" sentinel when its last propagate failed (or when no plot
exists); UndulatorPointing, BeamSteering and Transfocator read and return
the adapter's current detector values unconditionally, whatever the
failure flag says. -/
theorem C4_observation_sentinel_only_vonhamos :
    (∀ st : VHState, st.propagation_failed = true →
        VonHamosTask.get_observation st = none) ∧
    (∀ st : UPState,
        UndulatorPointingTask.get_observation st = (st.sim.hx2_cx, st.sim.hx2_cy)) ∧
    (∀ st : BSState, BeamSteeringTask.get_observation st = st.sim.dg1_cx) ∧
    (∀ st : TFState,
        TransfocatorTask.get_observation st
          = (st.sim.dg2_cx, st.sim.dg2_cy, st.sim.dg2_wx, st.sim.dg2_wy)) := by
  refine ⟨fun st h => ?_, fun _ => rfl, fun _ => rfl, fun _ => rfl⟩
  simp [VonHamosTask.get_observation, h]

theorem C4_observation_sentinel_only_vonhamos_witness :
    VonHamosTask.get_observation vhFailedEx = none :=
  (C4_observation_sentinel_only_vonhamos).1 vhFailedEx rfl

/-- C4 counterexample: two undulator-task states whose last propagate
failed; `get_observation` returns the current detector readings (3, 4)
and (0, 0) respectively — detector data, not a fixed null sentinel. -/
theorem C4_counterexample :
    upFailed34.propagation_failed = true ∧
    upFailed00.propagation_failed = true ∧
    UndulatorPointingTask.get_observation upFailed34 = (3, 4) ∧
    UndulatorPointingTask.get_observation upFailed00 = (0, 0) ∧
    UndulatorPointingTask.get_observation upFailed34
      ≠ UndulatorPointingTask.get_observation upFailed00 := by
  decide

/-- C8: each variant's objective is a deterministic pure function of the
adapter state at call time: the embedded method consumes only the task
state and returns a value — the source writes no attribute — so two
successive calls with no intervening `set_dofs` read identical state, and
the value depends only on the failure flag and the observation. -/
theorem C8_objective_pure :
    (∀ st1 st2 : UPState, st1.propagation_failed = st2.propagation_failed →
        UndulatorPointingTask.get_observation st1
          = UndulatorPointingTask.get_observation st2 →
        UndulatorPointingTask.evaluate_objective st1
          = UndulatorPointingTask.evaluate_objective st2) ∧
    (∀ st1 st2 : BSState, st1.propagation_failed = st2.propagation_failed →
        BeamSteeringTask.get_observation st1 = BeamSteeringTask.get_observation st2 →
        BeamSteeringTask.evaluate_objective st1
          = BeamSteeringTask.evaluate_objective st2) ∧
    (∀ st1 st2 : TFState, st1.propagation_failed = st2.propagation_failed →
        TransfocatorTask.get_observation st1 = TransfocatorTask.get_observation st2 →
        TransfocatorTask.evaluate_objective st1
          = TransfocatorTask.evaluate_objective st2) ∧
    (∀ st1 st2 : VHState, st1.propagation_failed = st2.propagation_failed →
        VonHamosTask.get_observation st1 = VonHamosTask.get_observation st2 →
        VonHamosTask.evaluate_objective st1 = VonHamosTask.evaluate_objective st2) := by
  refine ⟨fun st1 st2 hf ho => ?_, fun st1 st2 hf ho => ?_,
    fun st1 st2 hf ho => ?_, fun st1 st2 hf ho => ?_⟩
  · unfold UndulatorPointingTask.evaluate_objective
    rw [hf, ho]
  · unfold BeamSteeringTask.evaluate_objective
    rw [hf, ho]
  · unfold TransfocatorTask.evaluate_objective
    rw [hf, ho]
  · unfold VonHamosTask.evaluate_objective
    rw [hf, ho]

/-- Pair of undulator states agreeing on the failure flag and detector
readings but differing in a motor value. -/
def upObsA : UPState :=
  { sim := { simZero with ax := 1, hx2_cx := 3, hx2_cy := 4 },
    propagation_failed := false }

/-- Same readings as `upObsA` with a different `ax` motor value. -/
def upObsB : UPState :=
  { sim := { simZero with ax := 2, hx2_cx := 3, hx2_cy := 4 },
    propagation_failed := false }

theorem C8_objective_pure_witness :
    UndulatorPointingTask.evaluate_objective upObsA
      = UndulatorPointingTask.evaluate_objective upObsB :=
  (C8_objective_pure).1 upObsA upObsB rfl rfl

/-- C9: the objective is never negative: the penalty constant `1e6` is
positive, and the metrics are sums of a Euclidean norm and absolute
values. -/
theorem C9_objective_nonneg :
    (∀ st : UPState, 0 ≤ UndulatorPointingTask.evaluate_objective st) ∧
    (∀ st : BSState, 0 ≤ BeamSteeringTask.evaluate_objective st) ∧
    (∀ st : TFState, 0 ≤ TransfocatorTask.evaluate_objective st) ∧
    (∀ (st : VHState) (v : ℝ),
        VonHamosTask.evaluate_objective st = some v → 0 ≤ v) := by
  have hpen : (0 : ℝ) ≤ ((LARGE_PENALTY : ℚ) : ℝ) := by
    norm_num [LARGE_PENALTY]
  refine ⟨fun st => ?_, fun st => ?_, fun st => ?_, fun st v hv => ?_⟩
  · unfold UndulatorPointingTask.evaluate_objective
    split
    · exact hpen
    · exact Real.sqrt_nonneg _
  · unfold BeamSteeringTask.evaluate_objective
    split
    · exact hpen
    · exact abs_nonneg _
  · unfold TransfocatorTask.evaluate_objective
    split
    · exact hpen
    · exact add_nonneg (Real.sqrt_nonneg _) (abs_nonneg _)
  · unfold VonHamosTask.evaluate_objective at hv
    by_cases hf : st.propagation_failed = true
    · rw [if_pos hf] at hv
      injection hv with hv'
      rw [← hv']
      exact hpen
    · rw [if_neg hf] at hv
      cases hobs : VonHamosTask.get_observation st with
      | none =>
          rw [hobs] at hv
          exact absurd hv (by simp)
      | some o =>
          rw [hobs] at hv
          injection hv with hv'
          rw [← hv']
          exact add_nonneg (add_nonneg (Real.sqrt_nonneg _) (abs_nonneg _)) (abs_nonneg _)

theorem C9_objective_nonneg_witness :
    (0 : ℝ) ≤ ((LARGE_PENALTY : ℚ) : ℝ) :=
  (C9_objective_nonneg).2.2.2 vhFailedEx ((LARGE_PENALTY : ℚ) : ℝ) rfl
